import Mathlib

/-!
Shallow embedding of the leave-workflow component and the request
pipeline of the hr-management-system repository (Go), together with
proofs of the stated properties.

Conventions of the embedding:
* Go `time.Time` values that the leave component compares and subtracts
  are date-valued (midnight instants); we model such a value as `GoTime`,
  carrying its absolute day index and its calendar year (the only two
  observations the code makes: `Sub` in whole days and `Year()`).
* Machine integers of the code (`int`) are modelled as `Int`.
* The database state visible to the leave repository is the list of
  leave-request rows and the list of leave-balance rows; a gorm
  `Transaction` whose body returns an error rolls back, which we model
  by returning the original state paired with the error.
* Fallible operations return the pair (state, optional error), matching
  the Go signature `error` plus the persistent store.
-/

namespace HRMS

/-- A date-valued `time.Time`: absolute day index plus its calendar year. -/
structure GoTime where
  day : Int
  year : Int
  deriving DecidableEq, Repr

/-- Row of table `leaves` (struct `LeaveRequest` in internal/leave/models.go);
only the fields the verified operations read or write are carried. -/
structure LeaveRequest where
  ID : String
  EmployeeID : String
  LeaveType : String
  StartDate : GoTime
  EndDate : GoTime
  DaysRequested : Int
  Reason : String
  LeaveStatus : String
  ApproverID : Option String
  Comments : String
  ApprovedAt : Option GoTime
  deriving DecidableEq, Repr

/-- Row of table `leave_balances` (struct `LeaveBalance`). -/
structure LeaveBalance where
  ID : String
  EmployeeID : String
  LeaveType : String
  Year : Int
  TotalDays : Int
  UsedDays : Int
  deriving DecidableEq, Repr

/-- Go `CreateLeaveRequestRequest`. -/
structure CreateLeaveRequestRequest where
  EmployeeID : String
  LeaveType : String
  StartDate : GoTime
  EndDate : GoTime
  Reason : String
  deriving DecidableEq, Repr

/-- Go `UpdateLeaveRequestRequest`; Go uses zero values ("" and the zero
`time.Time`) as "field not supplied", modelled by `""` and `none`. -/
structure UpdateLeaveRequestRequest where
  LeaveType : String
  StartDate : Option GoTime
  EndDate : Option GoTime
  Reason : String
  deriving DecidableEq, Repr

/-- Go `ApproveLeaveRequestRequest`. -/
structure ApproveLeaveRequestRequest where
  ApproverID : String
  Comments : String
  deriving DecidableEq, Repr

/-- Go `RejectLeaveRequestRequest`. -/
structure RejectLeaveRequestRequest where
  ApproverID : String
  Comments : String
  deriving DecidableEq, Repr

/-- Go `calculateDaysRequested` (models.go): inclusive day span, clamped below
at zero. The Go code computes `int(endDate.Sub(startDate).Hours()/24) + 1`;
on date-valued times the quotient is the exact whole-day difference. -/
def calculateDaysRequested (startDate endDate : GoTime) : Int :=
  let days := endDate.day - startDate.day + 1
  if days < 0 then 0 else days

/-- Go `FromCreateRequest` (models.go): build a new leave request, always in
state `PENDING`, with the computed day count. -/
def FromCreateRequest (req : CreateLeaveRequestRequest) : LeaveRequest :=
  { ID := ""
    EmployeeID := req.EmployeeID
    LeaveType := req.LeaveType
    StartDate := req.StartDate
    EndDate := req.EndDate
    DaysRequested := calculateDaysRequested req.StartDate req.EndDate
    Reason := req.Reason
    LeaveStatus := "PENDING"
    ApproverID := none
    Comments := ""
    ApprovedAt := none }

/-- Go `LeaveRequest.ApplyUpdate` (models.go): overwrite supplied fields and
recalculate the day count when either date changed. -/
def LeaveRequest.ApplyUpdate (lr : LeaveRequest) (req : UpdateLeaveRequestRequest) :
    LeaveRequest :=
  let lr₁ := if req.LeaveType ≠ "" then { lr with LeaveType := req.LeaveType } else lr
  let lr₂ := match req.StartDate with
    | some d => { lr₁ with StartDate := d }
    | none => lr₁
  let lr₃ := match req.EndDate with
    | some d => { lr₂ with EndDate := d }
    | none => lr₂
  let lr₄ := if req.Reason ≠ "" then { lr₃ with Reason := req.Reason } else lr₃
  if req.StartDate.isSome ∨ req.EndDate.isSome then
    { lr₄ with DaysRequested := calculateDaysRequested lr₄.StartDate lr₄.EndDate }
  else lr₄

/-- Go `LeaveBalance.GetRemainingDays` (models.go): total minus used, floored
at zero. -/
def LeaveBalance.GetRemainingDays (lb : LeaveBalance) : Int :=
  let remaining := lb.TotalDays - lb.UsedDays
  if remaining < 0 then 0 else remaining

/-- The store the leave repository operates on: the `leaves` rows and the
`leave_balances` rows. -/
structure DBState where
  requests : List LeaveRequest
  balances : List LeaveBalance
  deriving DecidableEq, Repr

/-- Errors the leave repository returns (the wrapped `fmt.Errorf` values of
internal/leave/repository.go, by case). -/
inductive LeaveErr where
  | requestNotFound
  | cannotApprove (current : String)
  | cannotReject (current : String)
  | balanceNotFound
  | noFieldsToUpdate
  deriving DecidableEq, Repr

/-- Go `tx.First(&leave, "id = ?", id)`: first row with the given id. -/
def findRequest (rows : List LeaveRequest) (id : String) : Option LeaveRequest :=
  rows.find? (fun r => r.ID == id)

/-- Go `tx.Model(&leave).Updates(...)`: replace the row with the given primary
key. -/
def storeRequest (rows : List LeaveRequest) (id : String) (lr : LeaveRequest) :
    List LeaveRequest :=
  rows.map (fun r => if r.ID == id then lr else r)

/-- Go `tx.Where("employee_id = ? AND leave_type = ? AND year = ?", ...).First`:
first balance row matching the key. -/
def findBalance (rows : List LeaveBalance) (employeeID leaveType : String)
    (year : Int) : Option LeaveBalance :=
  rows.find? (fun b => b.EmployeeID == employeeID && b.LeaveType == leaveType && b.Year == year)

/-- Go `tx.Save(&balance)`: replace the balance row with the given primary key. -/
def storeBalance (rows : List LeaveBalance) (lb : LeaveBalance) : List LeaveBalance :=
  rows.map (fun b => if b.ID == lb.ID then lb else b)

/-- Body of the `ApproveLeave` transaction (repository.go, lines 143-177):
load the request, insist on `PENDING`, mark it approved, then debit the
balance row for (employee, leave type, year of the start date). -/
def ApproveLeaveTx (s : DBState) (id : String) (req : ApproveLeaveRequestRequest)
    (now : GoTime) : Except LeaveErr DBState :=
  match findRequest s.requests id with
  | none => .error .requestNotFound
  | some leave =>
    if leave.LeaveStatus ≠ "PENDING" then
      .error (.cannotApprove leave.LeaveStatus)
    else
      let leave' := { leave with
        LeaveStatus := "APPROVED"
        ApproverID := some req.ApproverID
        Comments := req.Comments
        ApprovedAt := some now }
      let requests' := storeRequest s.requests id leave'
      match findBalance s.balances leave.EmployeeID leave.LeaveType leave.StartDate.year with
      | none => .error .balanceNotFound
      | some balance =>
        let balance' := { balance with
          UsedDays := balance.UsedDays + leave.DaysRequested
          TotalDays := max balance.TotalDays (balance.UsedDays + leave.DaysRequested) }
        .ok { requests := requests', balances := storeBalance s.balances balance' }

/-- Go `ApproveLeave`: run the transaction; an error rolls the store back. -/
def ApproveLeave (s : DBState) (id : String) (req : ApproveLeaveRequestRequest)
    (now : GoTime) : DBState × Option LeaveErr :=
  match ApproveLeaveTx s id req now with
  | .ok s' => (s', none)
  | .error e => (s, some e)

/-- Body of the `RejectLeave` transaction (repository.go, lines 183-204). -/
def RejectLeaveTx (s : DBState) (id : String) (req : RejectLeaveRequestRequest)
    (now : GoTime) : Except LeaveErr DBState :=
  match findRequest s.requests id with
  | none => .error .requestNotFound
  | some leave =>
    if leave.LeaveStatus ≠ "PENDING" then
      .error (.cannotReject leave.LeaveStatus)
    else
      let leave' := { leave with
        LeaveStatus := "REJECTED"
        ApproverID := some req.ApproverID
        Comments := req.Comments
        ApprovedAt := some now }
      .ok { s with requests := storeRequest s.requests id leave' }

/-- Go `RejectLeave`: run the transaction; an error rolls the store back. -/
def RejectLeave (s : DBState) (id : String) (req : RejectLeaveRequestRequest)
    (now : GoTime) : DBState × Option LeaveErr :=
  match RejectLeaveTx s id req now with
  | .ok s' => (s', none)
  | .error e => (s, some e)

/-- Column assignment performed by the repository `Update` (repository.go,
lines 112-140): only `leave_type`, `start_date`, `end_date`, `reason` are
placed in the update map; `days_requested` is never written. -/
def updateColumns (r : LeaveRequest) (req : UpdateLeaveRequestRequest) : LeaveRequest :=
  let r₁ := if req.LeaveType ≠ "" then { r with LeaveType := req.LeaveType } else r
  let r₂ := match req.StartDate with
    | some d => { r₁ with StartDate := d }
    | none => r₁
  let r₃ := match req.EndDate with
    | some d => { r₂ with EndDate := d }
    | none => r₂
  if req.Reason ≠ "" then { r₃ with Reason := req.Reason } else r₃

/-- Repository `Update`: fail when no field is supplied, otherwise write the
supplied columns on every row with the given id. -/
def Update (s : DBState) (id : String) (req : UpdateLeaveRequestRequest) :
    DBState × Option LeaveErr :=
  if req.LeaveType = "" ∧ req.StartDate = none ∧ req.EndDate = none ∧ req.Reason = "" then
    (s, some .noFieldsToUpdate)
  else
    ({ s with requests := s.requests.map (fun r => if r.ID == id then updateColumns r req else r) },
      none)

/-! Request-pipeline embedding (internal/middleware). A Go `context.Context`
is modelled by the two observations this code makes of it: the optional
incoming gRPC metadata, and the stack of `context.WithValue` entries.
`context.WithValue` keys are compared by dynamic type AND value, so the
typed key `contextKey("token")` and the plain string `"token"` are distinct
keys; `CtxKey` is the sum of the two key shapes this code uses. -/

/-- Errors carried on the gRPC status of a failed call, by code. -/
inductive GrpcErr where
  | unauthenticated (msg : String)
  | notFound (msg : String)
  | failedPrecondition (msg : String)
  | internal (msg : String)
  deriving DecidableEq, Repr

/-- A context key: either a plain Go `string` or the middleware's typed
`contextKey` (a distinct dynamic type wrapping a string). -/
inductive CtxKey where
  | goString (s : String)
  | contextKey (s : String)
  deriving DecidableEq, Repr

/-- Incoming gRPC metadata: a map from header name to list of values,
modelled as an association list; indexing a missing key yields `[]`. -/
abbrev Metadata := List (String × List String)

/-- Go map indexing `md[k]`: the values under `k`, or `[]` when absent. -/
def mdIndex (md : Metadata) (k : String) : List String :=
  match md.find? (fun p => p.1 == k) with
  | some p => p.2
  | none => []

/-- The part of a `context.Context` this middleware observes. -/
structure Ctx where
  md : Option Metadata
  values : List (CtxKey × String)
  deriving DecidableEq, Repr

/-- Go `ctx.Value(k)`: innermost (most recently written) entry for `k`. -/
def ctxValue (ctx : Ctx) (k : CtxKey) : Option String :=
  (ctx.values.find? (fun p => p.1 == k)).map (·.2)

/-- Go `strings.HasPrefix(s, pre)`, on the character lists. -/
def goHasPre (s pre : String) : Bool :=
  pre.data.isPrefixOf s.data

/-- Go `strings.TrimPrefix(s, pre)`: remove the leading occurrence of
`pre`, or return `s` unchanged when it is not a leading occurrence. -/
def goTrim (s pre : String) : String :=
  if goHasPre s pre then ⟨s.data.drop pre.data.length⟩ else s

/-- Go `AuthFunc` (middleware auth): read the metadata values of the header
key "authrorization" (sic, as written in the source), demand the first to
start with "Bearer", strip the prefix "Bearer " (`strings.TrimPrefix`
leaves the value unchanged when that longer prefix is absent), reject an
empty token, and store the token under the typed key `contextKey("token")`. -/
def AuthFunc (ctx : Ctx) : Except GrpcErr Ctx :=
  match ctx.md with
  | none => .error (.unauthenticated "missing metadata")
  | some md =>
    match mdIndex md "authrorization" with
    | [] => .error (.unauthenticated "missing authorization header")
    | authHeader :: _ =>
      if ¬ goHasPre authHeader "Bearer" then
        .error (.unauthenticated "invalid authorization format")
      else
        let token := goTrim authHeader "Bearer "
        if token = "" then .error (.unauthenticated "missing token")
        else .ok { ctx with values := (CtxKey.contextKey "token", token) :: ctx.values }

/-- Go `GetTokenFromContext`: look up the PLAIN STRING key "token" and report
(value, true) or ("", false). -/
def GetTokenFromContext (ctx : Ctx) : String × Bool :=
  match ctxValue ctx (.goString "token") with
  | some token => (token, true)
  | none => ("", false)

/-- Go `SkipAuth`: the allow-list of public endpoints, verbatim from the
source (note the misspelled service name in the second entry). -/
def SkipAuth (fullMethodName : String) : Bool :=
  (["/hr.auth.v1.AuthService/Login", "/hr.auth.v1.AuthServce/RefreshToken"] : List String).contains
    fullMethodName

/-- Go `UnaryAuthInterceptor`: bypass authentication for allow-listed methods,
otherwise run `AuthFunc` and hand the handler the augmented context. -/
def UnaryAuthInterceptor {α : Type} (fullMethod : String) (ctx : Ctx)
    (handler : Ctx → Except GrpcErr α) : Except GrpcErr α :=
  if SkipAuth fullMethod then handler ctx
  else
    match AuthFunc ctx with
    | .error e => .error e
    | .ok newCtx => handler newCtx

/-- Outcome of running a wrapped handler: either a normal Go return
(response, error) — both possibly nil — or a panic carrying a payload. -/
inductive HandlerOutcome (α : Type) where
  | returns (resp : Option α) (err : Option GrpcErr)
  | panicked (payload : String)
  deriving DecidableEq, Repr

/-- Go `RecoveryInterceptor` (internal/middleware/logging.go): a normal return
passes through unchanged; a recovered panic yields a nil response and the
constant Internal error, with the panic payload only logged. -/
def RecoveryInterceptor {α : Type} (outcome : HandlerOutcome α) :
    Option α × Option GrpcErr :=
  match outcome with
  | .returns resp err => (resp, err)
  | .panicked _ => (none, some (.internal "internal server error"))

/-- The charset of `randomString`. -/
def charset : String := "abcdefghijklmnopqrstuvwxyzABCDEFGHIJKLMNOPQRSTUVWXYZ0123456789"

/-- One Go assignment `b[i] = c`: out-of-range index panics. -/
def writeAt (b : List Char) (i : Nat) (c : Char) : Option (List Char) :=
  if i < b.length then some (b.set i c) else none

/-- The loop of `randomString`, iterating the given index sequence; `none`
models an index-out-of-range panic. -/
def writeLoop (c : Char) : List Nat → List Char → Option (List Char)
  | [], b => some b
  | i :: is, b =>
    match writeAt b i c with
    | none => none
    | some b' => writeLoop c is b'

/-- Go `randomString(length)` (internal/middleware/logging.go): allocate a
zero-filled buffer of the requested length, then loop `for i := range
charset` — over the 62 charset indices — writing `charset[now%62]` at
index i. `none` models the runtime panic. -/
def randomString (nowNanos : Nat) (length : Nat) : Option String :=
  let cs := charset.data
  let c := cs.getD (nowNanos % cs.length) (Char.ofNat 0)
  match writeLoop c (List.range cs.length) (List.replicate length (Char.ofNat 0)) with
  | some b => some (String.mk b)
  | none => none

/-- Go `generateRequestID`: formatted current time, a dash, and
`randomString(8)`. -/
def generateRequestID (timestamp : String) (nowNanos : Nat) : Option String :=
  (randomString nowNanos 8).map (fun r => timestamp ++ "-" ++ r)

/-- Go `getRequestID`: the string stored under the plain key "request_id" when
present, otherwise a freshly generated identifier. -/
def getRequestID (ctx : Ctx) (timestamp : String) (nowNanos : Nat) : Option String :=
  match ctxValue ctx (.goString "request_id") with
  | some reqID => some reqID
  | none => generateRequestID timestamp nowNanos

/-- Modelled from the spec: the leave service layer (workflow boundary) is
not among the provided sources; per the spec it re-classifies repository
errors — request absent → NotFound, request not PENDING →
FailedPrecondition naming the current state, any other repository failure
→ Internal — and forwards success unchanged. -/
def ServiceApprove (s : DBState) (id approverID comments : String) (now : GoTime) :
    DBState × Option GrpcErr :=
  match ApproveLeave s id ⟨approverID, comments⟩ now with
  | (s', none) => (s', none)
  | (s', some .requestNotFound) => (s', some (.notFound "leave request not found"))
  | (s', some (.cannotApprove current)) =>
      (s', some (.failedPrecondition ("cannot approve leave with status: " ++ current)))
  | (s', some _) => (s', some (.internal "failed to approve leave"))

/-! Concrete fixtures used by the evaluation theorems: the spec's running
example (start 2024-01-01, end 2024-01-03 as day indices 0 and 2 of 2024;
balance total 10, used 2). -/

/-- Example PENDING request: a 3-day span. -/
def exReq : LeaveRequest :=
  { ID := "r1", EmployeeID := "e1", LeaveType := "ANNUAL"
    StartDate := ⟨0, 2024⟩, EndDate := ⟨2, 2024⟩, DaysRequested := 3
    Reason := "trip", LeaveStatus := "PENDING"
    ApproverID := none, Comments := "", ApprovedAt := none }

/-- The example request already REJECTED. -/
def exReqRejected : LeaveRequest := { exReq with LeaveStatus := "REJECTED" }

/-- Example balance row: total 10, used 2. -/
def exBal : LeaveBalance :=
  { ID := "b1", EmployeeID := "e1", LeaveType := "ANNUAL", Year := 2024
    TotalDays := 10, UsedDays := 2 }

/-- Store holding the example PENDING request and its balance row. -/
def exState : DBState := ⟨[exReq], [exBal]⟩

/-- Store holding the already-rejected request and the balance row. -/
def exStateRejected : DBState := ⟨[exReqRejected], [exBal]⟩

/-- An arbitrary approval instant. -/
def tNow : GoTime := ⟨100, 2024⟩

/-- Go `GetRemainingDays` is the clamped difference total − used. -/
theorem GetRemainingDays_eq_max (lb : LeaveBalance) :
    lb.GetRemainingDays = max (lb.TotalDays - lb.UsedDays) 0 := by
  simp only [LeaveBalance.GetRemainingDays]
  split_ifs <;> omega

/-- C5: a leave request built by `FromCreateRequest` from a create request
with end date ≥ start date has day count (end − start) + 1, which is
strictly positive. -/
theorem fromCreateRequest_dayCount (req : CreateLeaveRequestRequest)
    (h : req.StartDate.day ≤ req.EndDate.day) :
    (FromCreateRequest req).DaysRequested = (req.EndDate.day - req.StartDate.day) + 1 ∧
    0 < (FromCreateRequest req).DaysRequested := by
  simp only [FromCreateRequest, calculateDaysRequested]
  constructor <;> split_ifs <;> omega

/-- Witness for C5 at the spec's example: start 2024-01-01, end 2024-01-03
(day indices 0 and 2) gives day count 3 > 0. -/
theorem fromCreateRequest_dayCount_witness :
    (⟨"e1", "ANNUAL", ⟨0, 2024⟩, ⟨2, 2024⟩, "trip"⟩ :
        CreateLeaveRequestRequest).StartDate.day ≤
      (⟨"e1", "ANNUAL", ⟨0, 2024⟩, ⟨2, 2024⟩, "trip"⟩ :
        CreateLeaveRequestRequest).EndDate.day ∧
    ((FromCreateRequest ⟨"e1", "ANNUAL", ⟨0, 2024⟩, ⟨2, 2024⟩, "trip"⟩).DaysRequested = 3 ∧
      0 < (FromCreateRequest ⟨"e1", "ANNUAL", ⟨0, 2024⟩, ⟨2, 2024⟩, "trip"⟩).DaysRequested) :=
  ⟨by decide, fromCreateRequest_dayCount _ (by decide)⟩

/-- C1: approving a request whose status is not PENDING fails with the
status-naming error and returns the store exactly as it was: every
leave-request row and every leave-balance row is unchanged. -/
theorem approveLeave_nonPending_unchanged (s : DBState) (id : String)
    (req : ApproveLeaveRequestRequest) (now : GoTime) (lv : LeaveRequest)
    (hfind : findRequest s.requests id = some lv)
    (hstatus : lv.LeaveStatus ≠ "PENDING") :
    ApproveLeave s id req now = (s, some (.cannotApprove lv.LeaveStatus)) ∧
    (ApproveLeave s id req now).1.requests = s.requests ∧
    (ApproveLeave s id req now).1.balances = s.balances := by
  have hmain : ApproveLeave s id req now = (s, some (.cannotApprove lv.LeaveStatus)) := by
    simp only [ApproveLeave, ApproveLeaveTx, hfind]
    rw [if_pos hstatus]
  exact ⟨hmain, by rw [hmain], by rw [hmain]⟩

/-- Witness for C1: approving the already-REJECTED example request fails
and leaves the store untouched. -/
theorem approveLeave_nonPending_unchanged_witness :
    (findRequest exStateRejected.requests "r1" = some exReqRejected ∧
      exReqRejected.LeaveStatus ≠ "PENDING") ∧
    (ApproveLeave exStateRejected "r1" ⟨"m1", "no"⟩ tNow =
        (exStateRejected, some (.cannotApprove exReqRejected.LeaveStatus)) ∧
      (ApproveLeave exStateRejected "r1" ⟨"m1", "no"⟩ tNow).1.requests =
        exStateRejected.requests ∧
      (ApproveLeave exStateRejected "r1" ⟨"m1", "no"⟩ tNow).1.balances =
        exStateRejected.balances) :=
  ⟨⟨by decide, by decide⟩,
    approveLeave_nonPending_unchanged exStateRejected "r1" ⟨"m1", "no"⟩ tNow
      exReqRejected (by decide) (by decide)⟩

/-- C4: rejecting a PENDING request rewrites that request to REJECTED with
the approver, comments and timestamp recorded, and leaves the balance rows
literally unchanged. -/
theorem rejectLeave_pending (s : DBState) (id : String)
    (req : RejectLeaveRequestRequest) (now : GoTime) (lv : LeaveRequest)
    (hfind : findRequest s.requests id = some lv)
    (hstatus : lv.LeaveStatus = "PENDING") :
    RejectLeave s id req now =
      ({ s with requests := (storeRequest s.requests id
          { lv with
            LeaveStatus := "REJECTED"
            ApproverID := some req.ApproverID
            Comments := req.Comments
            ApprovedAt := some now }) }, none) ∧
    (RejectLeave s id req now).1.balances = s.balances := by
  have hmain : RejectLeave s id req now =
      ({ s with requests := (storeRequest s.requests id
          { lv with
            LeaveStatus := "REJECTED"
            ApproverID := some req.ApproverID
            Comments := req.Comments
            ApprovedAt := some now }) }, none) := by
    simp only [RejectLeave, RejectLeaveTx, hfind]
    rw [if_neg (not_not_intro hstatus)]
  exact ⟨hmain, by rw [hmain]⟩

/-- Witness for C4: rejecting the example PENDING request updates only the
request row and keeps the balance list identical. -/
theorem rejectLeave_pending_witness :
    (findRequest exState.requests "r1" = some exReq ∧ exReq.LeaveStatus = "PENDING") ∧
    (RejectLeave exState "r1" ⟨"m1", "denied"⟩ tNow =
        ({ exState with requests := (storeRequest exState.requests "r1"
            { exReq with
              LeaveStatus := "REJECTED"
              ApproverID := some "m1"
              Comments := "denied"
              ApprovedAt := some tNow }) }, none) ∧
      (RejectLeave exState "r1" ⟨"m1", "denied"⟩ tNow).1.balances = exState.balances) :=
  ⟨⟨by decide, by decide⟩,
    rejectLeave_pending exState "r1" ⟨"m1", "denied"⟩ tNow exReq (by decide) (by decide)⟩

/-- C2: approving a PENDING request with day count D against an existing
balance row (total T, used U) marks the request approved and rewrites that
row to used = U + D and total = max(T, U + D); the remaining days computed
for the updated row equal max(total − used, 0). -/
theorem approveLeave_pending (s : DBState) (id : String)
    (req : ApproveLeaveRequestRequest) (now : GoTime) (lv : LeaveRequest)
    (b : LeaveBalance)
    (hfind : findRequest s.requests id = some lv)
    (hstatus : lv.LeaveStatus = "PENDING")
    (hbal : findBalance s.balances lv.EmployeeID lv.LeaveType lv.StartDate.year = some b) :
    ApproveLeave s id req now =
      ({ requests := (storeRequest s.requests id
          { lv with
            LeaveStatus := "APPROVED"
            ApproverID := some req.ApproverID
            Comments := req.Comments
            ApprovedAt := some now })
         balances := (storeBalance s.balances
          { b with
            UsedDays := b.UsedDays + lv.DaysRequested
            TotalDays := max b.TotalDays (b.UsedDays + lv.DaysRequested) }) }, none) ∧
    LeaveBalance.GetRemainingDays
        { b with
          UsedDays := b.UsedDays + lv.DaysRequested
          TotalDays := max b.TotalDays (b.UsedDays + lv.DaysRequested) } =
      max (max b.TotalDays (b.UsedDays + lv.DaysRequested) -
        (b.UsedDays + lv.DaysRequested)) 0 := by
  constructor
  · simp only [ApproveLeave, ApproveLeaveTx, hfind]
    rw [if_neg (not_not_intro hstatus), hbal]
  · rw [GetRemainingDays_eq_max]

/-- Witness for C2 at the spec's example: a 3-day PENDING request against
total 10, used 2 yields used 5, total 10, remaining 5. -/
theorem approveLeave_pending_witness :
    (findRequest exState.requests "r1" = some exReq ∧
      exReq.LeaveStatus = "PENDING" ∧
      findBalance exState.balances exReq.EmployeeID exReq.LeaveType
        exReq.StartDate.year = some exBal) ∧
    ApproveLeave exState "r1" ⟨"m1", "ok"⟩ tNow =
      ({ requests := (storeRequest exState.requests "r1"
          { exReq with
            LeaveStatus := "APPROVED"
            ApproverID := some "m1"
            Comments := "ok"
            ApprovedAt := some tNow })
         balances := (storeBalance exState.balances
          { exBal with
            UsedDays := exBal.UsedDays + exReq.DaysRequested
            TotalDays := max exBal.TotalDays
              (exBal.UsedDays + exReq.DaysRequested) }) }, none) ∧
    exBal.UsedDays + exReq.DaysRequested = 5 ∧
    LeaveBalance.GetRemainingDays
        { exBal with
          UsedDays := exBal.UsedDays + exReq.DaysRequested
          TotalDays := max exBal.TotalDays
            (exBal.UsedDays + exReq.DaysRequested) } = 5 :=
  ⟨⟨by decide, by decide, by decide⟩,
    (approveLeave_pending exState "r1" ⟨"m1", "ok"⟩ tNow exReq exBal
      (by decide) (by decide) (by decide)).1,
    by decide, by decide⟩

/-- C3: the approval workflow surfaces every failure — an absent request
yields the NotFound classification, a non-PENDING request yields the
FailedPrecondition classification whose message names the current state,
and any repository error whatsoever becomes an error for the caller. -/
theorem serviceApprove_errors (s : DBState) (id approver comments : String)
    (now : GoTime) :
    (findRequest s.requests id = none →
      (ServiceApprove s id approver comments now).2 =
        some (.notFound "leave request not found")) ∧
    (∀ lv, findRequest s.requests id = some lv → lv.LeaveStatus ≠ "PENDING" →
      (ServiceApprove s id approver comments now).2 =
        some (.failedPrecondition
          ("cannot approve leave with status: " ++ lv.LeaveStatus))) ∧
    (∀ e, (ApproveLeave s id ⟨approver, comments⟩ now).2 = some e →
      ∃ ge, (ServiceApprove s id approver comments now).2 = some ge) := by
  refine ⟨?_, ?_, ?_⟩
  · intro hnone
    have hA : ApproveLeave s id ⟨approver, comments⟩ now =
        (s, some .requestNotFound) := by
      simp only [ApproveLeave, ApproveLeaveTx, hnone]
    simp only [ServiceApprove, hA]
  · intro lv hfind hstatus
    have hA : ApproveLeave s id ⟨approver, comments⟩ now =
        (s, some (.cannotApprove lv.LeaveStatus)) := by
      simp only [ApproveLeave, ApproveLeaveTx, hfind]
      rw [if_pos hstatus]
    simp only [ServiceApprove, hA]
  · intro e he
    rcases hA : ApproveLeave s id ⟨approver, comments⟩ now with ⟨s', oe⟩
    rw [hA] at he
    simp only at he
    subst he
    cases e <;> simp [ServiceApprove, hA]

/-- Witness for C3: approving a nonexistent request in the empty store
yields the NotFound error. -/
theorem serviceApprove_errors_witness :
    findRequest (⟨[], []⟩ : DBState).requests "zzz" = none ∧
    (ServiceApprove ⟨[], []⟩ "zzz" "m1" "c" tNow).2 =
      some (.notFound "leave request not found") :=
  ⟨by decide, (serviceApprove_errors ⟨[], []⟩ "zzz" "m1" "c" tNow).1 (by decide)⟩

/-- A one-day request (start = end = 2024-01-01, stored day count 1). -/
def exReqOneDay : LeaveRequest := { exReq with EndDate := ⟨0, 2024⟩, DaysRequested := 1 }

/-- An update request that only moves the end date to 2024-01-03. -/
def exUpd : UpdateLeaveRequestRequest :=
  { LeaveType := "", StartDate := none, EndDate := some ⟨2, 2024⟩, Reason := "" }

/-- C6 evaluated at the failing input: the repository `Update` writes the
new end date but never the day count, so afterwards the stored day count
(1) differs from the inclusive span of the new date range (3) — the
invariant the spec states (and that `LeaveRequest.ApplyUpdate` was written
to maintain) is broken by the persistence path. -/
theorem update_breaks_dayCount :
    (Update ⟨[exReqOneDay], [exBal]⟩ "r1" exUpd).2 = none ∧
    findRequest (Update ⟨[exReqOneDay], [exBal]⟩ "r1" exUpd).1.requests "r1" =
      some { exReqOneDay with EndDate := ⟨2, 2024⟩ } ∧
    ({ exReqOneDay with EndDate := ⟨2, 2024⟩ } : LeaveRequest).DaysRequested = 1 ∧
    calculateDaysRequested
        ({ exReqOneDay with EndDate := ⟨2, 2024⟩ } : LeaveRequest).StartDate
        ({ exReqOneDay with EndDate := ⟨2, 2024⟩ } : LeaveRequest).EndDate = 3 ∧
    ¬ ({ exReqOneDay with EndDate := ⟨2, 2024⟩ } : LeaveRequest).DaysRequested =
        calculateDaysRequested
          ({ exReqOneDay with EndDate := ⟨2, 2024⟩ } : LeaveRequest).StartDate
          ({ exReqOneDay with EndDate := ⟨2, 2024⟩ } : LeaveRequest).EndDate ∧
    (LeaveRequest.ApplyUpdate exReqOneDay exUpd).DaysRequested = 3 := by
  decide

/-- C8: the recovery interceptor is total — a normal handler return passes
through unchanged, and a panic becomes the constant Internal error whose
content is independent of the panic payload. -/
theorem recoveryInterceptor_total (α : Type) :
    (∀ (resp : Option α) (err : Option GrpcErr),
      RecoveryInterceptor (.returns resp err) = (resp, err)) ∧
    (∀ payload : String,
      @RecoveryInterceptor α (.panicked payload) =
        (none, some (.internal "internal server error"))) ∧
    (∀ p q : String,
      @RecoveryInterceptor α (.panicked p) = @RecoveryInterceptor α (.panicked q)) :=
  ⟨fun _ _ => rfl, fun _ => rfl, fun _ _ => rfl⟩

/-- The loop of `randomString` panics whenever some index it visits is not
below the (invariant) buffer length. -/
theorem writeLoop_none (c : Char) :
    ∀ (is : List Nat) (b : List Char),
      (∃ i ∈ is, ¬ i < b.length) → writeLoop c is b = none := by
  intro is
  induction is with
  | nil =>
    intro b h
    rcases h with ⟨i, hi, _⟩
    cases hi
  | cons j js ih =>
    intro b h
    rcases h with ⟨i, hi, hge⟩
    simp only [writeLoop, writeAt]
    by_cases hj : j < b.length
    · rw [if_pos hj]
      simp only []
      apply ih
      rcases List.mem_cons.mp hi with hij | hmem
      · exact absurd (hij ▸ hj) hge
      · exact ⟨i, hmem, by simpa using hge⟩
    · rw [if_neg hj]

/-- C9: `randomString` iterates the 62 charset indices while writing into a
buffer of the requested length, so every length below 62 faults with an
out-of-range write; consequently `generateRequestID` (which asks for 8
random characters) and `getRequestID` on a context carrying no
"request_id" value fault instead of producing an identifier. -/
theorem randomString_oob (length : Nat) (h : length < 62) :
    (∀ nowNanos, randomString nowNanos length = none) ∧
    (∀ timestamp nowNanos, generateRequestID timestamp nowNanos = none) ∧
    (∀ (ctx : Ctx) timestamp nowNanos,
      ctxValue ctx (.goString "request_id") = none →
      getRequestID ctx timestamp nowNanos = none) := by
  have hcs : charset.data.length = 62 := by decide
  have hrand : ∀ (nowNanos len : Nat), len < 62 → randomString nowNanos len = none := by
    intro nowNanos len hlen
    simp only [randomString]
    rw [writeLoop_none]
    refine ⟨len, ?_, ?_⟩
    · exact List.mem_range.mpr (by omega)
    · simp
  refine ⟨fun n => hrand n length h, ?_, ?_⟩
  · intro ts n
    simp only [generateRequestID, hrand n 8 (by omega), Option.map_none']
  · intro ctx ts n hnone
    simp only [getRequestID, hnone, generateRequestID, hrand n 8 (by omega),
      Option.map_none']

/-- Witness for C9: `randomString(8)` faults, and `getRequestID` on a bare
context faults. -/
theorem randomString_oob_witness :
    8 < 62 ∧ randomString 0 8 = none ∧ getRequestID ⟨none, []⟩ "ts" 0 = none :=
  ⟨by decide, (randomString_oob 8 (by decide)).1 0,
    (randomString_oob 8 (by decide)).2.2 ⟨none, []⟩ "ts" 0 (by decide)⟩

/-- A successful `AuthFunc` only prepends the token entry under the typed
key `contextKey("token")`; metadata and earlier values are untouched. -/
theorem AuthFunc_ok_shape (ctx ctx' : Ctx) (h : AuthFunc ctx = .ok ctx') :
    ∃ tok, ctx' = { ctx with values := (CtxKey.contextKey "token", tok) :: ctx.values } := by
  cases hmd : ctx.md with
  | none => simp [AuthFunc, hmd] at h
  | some md =>
    cases hidx : mdIndex md "authrorization" with
    | nil => simp [AuthFunc, hmd, hidx] at h
    | cons a as =>
      simp only [AuthFunc, hmd, hidx] at h
      by_cases h1 : goHasPre a "Bearer"
      · rw [if_neg (by simp [h1])] at h
        by_cases h2 : goTrim a "Bearer " = ""
        · rw [if_pos h2] at h
          cases h
        · rw [if_neg h2] at h
          exact ⟨goTrim a "Bearer ", (Except.ok.inj h).symm⟩
      · rw [if_pos (by simpa using h1)] at h
        cases h

/-- C10: after a successful `AuthFunc`, `GetTokenFromContext` — which looks
up the PLAIN STRING key "token" rather than the typed key the token was
stored under — sees exactly what it saw on the incoming context; on any
incoming context with no plain-string "token" entry (every context the
server constructs) it returns ("", false), so the stored credential is
never retrievable through this accessor. -/
theorem getTokenFromContext_mismatch (ctx ctx' : Ctx)
    (h : AuthFunc ctx = .ok ctx') :
    GetTokenFromContext ctx' = GetTokenFromContext ctx ∧
    (ctxValue ctx (.goString "token") = none →
      GetTokenFromContext ctx' = ("", false)) := by
  obtain ⟨tok, rfl⟩ := AuthFunc_ok_shape ctx ctx' h
  have hfind : List.find? (fun p => p.1 == CtxKey.goString "token")
      ((CtxKey.contextKey "token", tok) :: ctx.values) =
      List.find? (fun p => p.1 == CtxKey.goString "token") ctx.values := by
    rw [List.find?_cons_of_neg]
    exact fun hc => Bool.noConfusion hc
  have hval : ctxValue { ctx with
        values := (CtxKey.contextKey "token", tok) :: ctx.values }
      (.goString "token") = ctxValue ctx (.goString "token") := by
    simp only [ctxValue, hfind]
  refine ⟨?_, ?_⟩
  · simp only [GetTokenFromContext, hval]
  · intro h0
    simp only [GetTokenFromContext, hval, h0]

/-- Witness for C10: authenticating a context whose (misspelled) header
carries "Bearer abc" stores the token, yet the accessor returns ("",
false). -/
theorem getTokenFromContext_mismatch_witness :
    AuthFunc ⟨some [("authrorization", ["Bearer abc"])], []⟩ =
      .ok ⟨some [("authrorization", ["Bearer abc"])],
        [(CtxKey.contextKey "token", "abc")]⟩ ∧
    ctxValue ⟨some [("authrorization", ["Bearer abc"])], []⟩ (.goString "token") = none ∧
    GetTokenFromContext
        ⟨some [("authrorization", ["Bearer abc"])],
          [(CtxKey.contextKey "token", "abc")]⟩ = ("", false) :=
  ⟨rfl, rfl,
    (getTokenFromContext_mismatch ⟨some [("authrorization", ["Bearer abc"])], []⟩
      ⟨some [("authrorization", ["Bearer abc"])],
        [(CtxKey.contextKey "token", "abc")]⟩ rfl).2 rfl⟩

/-- C7 counterexample: a call carrying a present, well-formed, non-empty
bearer credential under the standard metadata key "authorization" is
nonetheless rejected (the code consults the misspelled key
"authrorization"), and the actual token-refresh method of the auth
service is not on the allow-list (the list misspells its service name). -/
theorem auth_exactness_counterexample :
    mdIndex [("authorization", ["Bearer abc"])] "authorization" = ["Bearer abc"] ∧
    goHasPre "Bearer abc" "Bearer " = true ∧
    goTrim "Bearer abc" "Bearer " = "abc" ∧
    ("abc" : String) ≠ "" ∧
    AuthFunc ⟨some [("authorization", ["Bearer abc"])], []⟩ =
      .error (.unauthenticated "missing authorization header") ∧
    UnaryAuthInterceptor "/hr.employee.v1.EmployeeService/GetEmployee"
      ⟨some [("authorization", ["Bearer abc"])], []⟩
      (fun _ => .ok (0 : Nat)) =
      .error (.unauthenticated "missing authorization header") ∧
    SkipAuth "/hr.auth.v1.AuthService/RefreshToken" = false :=
  ⟨rfl, rfl, rfl, by decide, rfl, rfl, rfl⟩

/-- The rejection condition of the amended C7, stated structurally over the
call metadata: the metadata is absent, the (misspelled) header key
"authrorization" has no values, its first value does not start with
"Bearer", or stripping the prefix "Bearer " from it leaves the empty
string. -/
def bearerRejectSpec (ctx : Ctx) : Prop :=
  ctx.md = none ∨
    ∃ md, ctx.md = some md ∧
      (mdIndex md "authrorization" = [] ∨
        ∃ a rest, mdIndex md "authrorization" = a :: rest ∧
          (goHasPre a "Bearer" = false ∨ goTrim a "Bearer " = ""))

/-- C7 amended: allow-listed method strings bypass authentication
entirely; for other methods the interceptor forwards `AuthFunc`'s verdict,
and `AuthFunc` rejects — always with Unauthenticated — exactly under
`bearerRejectSpec` (misspelled header key; a value starting with "Bearer"
but not "Bearer " passes whole, e.g. "Bearerabc"); the allow-list contains
the literal Login method and a misspelled RefreshToken method, so the real
RefreshToken method is not bypassed. -/
theorem unaryAuthInterceptor_amended (m : String) (ctx : Ctx)
    (handler : Ctx → Except GrpcErr Nat) :
    (SkipAuth m = true → UnaryAuthInterceptor m ctx handler = handler ctx) ∧
    (SkipAuth m = false → ∀ e, AuthFunc ctx = .error e →
      UnaryAuthInterceptor m ctx handler = .error e) ∧
    (SkipAuth m = false → ∀ ctx', AuthFunc ctx = .ok ctx' →
      UnaryAuthInterceptor m ctx handler = handler ctx') ∧
    ((∃ msg, AuthFunc ctx = .error (.unauthenticated msg)) ↔ bearerRejectSpec ctx) ∧
    SkipAuth "/hr.auth.v1.AuthService/Login" = true ∧
    SkipAuth "/hr.auth.v1.AuthServce/RefreshToken" = true ∧
    SkipAuth "/hr.auth.v1.AuthService/RefreshToken" = false := by
  refine ⟨?_, ?_, ?_, ?_, by decide, by decide, by decide⟩
  · intro hs
    simp [UnaryAuthInterceptor, hs]
  · intro hs e he
    simp [UnaryAuthInterceptor, hs, he]
  · intro hs ctx' hok
    simp [UnaryAuthInterceptor, hs, hok]
  · constructor
    · rintro ⟨msg, hmsg⟩
      cases hmd : ctx.md with
      | none => exact Or.inl hmd
      | some md =>
        refine Or.inr ⟨md, hmd, ?_⟩
        cases hidx : mdIndex md "authrorization" with
        | nil => exact Or.inl rfl
        | cons a as =>
          simp only [AuthFunc, hmd, hidx] at hmsg
          refine Or.inr ⟨a, as, rfl, ?_⟩
          by_cases h1 : goHasPre a "Bearer"
          · rw [if_neg (by simp [h1])] at hmsg
            by_cases h2 : goTrim a "Bearer " = ""
            · exact Or.inr h2
            · rw [if_neg h2] at hmsg
              cases hmsg
          · exact Or.inl (by simpa using h1)
    · intro hspec
      rcases hspec with hmd | ⟨md, hmd, hrest⟩
      · exact ⟨"missing metadata", by simp [AuthFunc, hmd]⟩
      · rcases hrest with hidx | ⟨a, rest, hidx, hcase⟩
        · exact ⟨"missing authorization header", by simp [AuthFunc, hmd, hidx]⟩
        · rcases hcase with hsw | htok
          · exact ⟨"invalid authorization format", by simp [AuthFunc, hmd, hidx, hsw]⟩
          · by_cases hsw : goHasPre a "Bearer"
            · exact ⟨"missing token", by simp [AuthFunc, hmd, hidx, hsw, htok]⟩
            · exact ⟨"invalid authorization format",
                by simp [AuthFunc, hmd, hidx, (by simpa using hsw : goHasPre a "Bearer" = false)]⟩

/-- Witness for the amended C7: the Login method bypasses the check — the
handler runs directly on the incoming context, even one with no metadata. -/
theorem unaryAuthInterceptor_amended_witness :
    SkipAuth "/hr.auth.v1.AuthService/Login" = true ∧
    UnaryAuthInterceptor "/hr.auth.v1.AuthService/Login" ⟨none, []⟩
      (fun _ => .ok (7 : Nat)) = .ok 7 :=
  ⟨by decide,
    (unaryAuthInterceptor_amended "/hr.auth.v1.AuthService/Login" ⟨none, []⟩
      (fun _ => .ok (7 : Nat))).1 (by decide)⟩

end HRMS
